import Mathlib

/-!
Shallow embedding of `pkg/cloudprovider/aws/subnets.go` (karpenter-provider-aws):
the subnet resolution pipeline `SubnetProvider.Get` with its cache-or-fetch step
`getSubnets`, the narrowing function `filter`, and the three predicates
`byName`, `byTagKey`, `byZones`.

AWS SDK string pointers (`*string`) are modelled as `Option String`, and
`aws.StringValue` (nil becomes the empty string) as `stringValue`.  The
`go-cache` store is modelled as a function from keys to optional entries each
carrying its expiry instant; time is an abstract `Nat`.  The EC2 call
`DescribeSubnetsWithContext` is an external collaborator, modelled as a
function from the describe-filter to `Except String (List Subnet)`.
-/

/-- `aws.StringValue`: dereference a string pointer, nil yielding `""`. -/
def stringValue : Option String → String
  | none => ""
  | some s => s

/-- An EC2 tag: key/value pair of string pointers (`ec2.Tag`). -/
structure Tag where
  key : Option String
  value : Option String
deriving DecidableEq

/-- An EC2 subnet, with the fields `subnets.go` reads (`ec2.Subnet`). -/
structure Subnet where
  subnetId : Option String
  availabilityZone : Option String
  tags : List Tag
deriving DecidableEq

/-- Constraints from `v1alpha1`/the provider config: optional subnet name,
optional subnet tag key, and a zone list.  Modelled from the spec: the
`Constraints` type and its getters are not under `src/`; the spec gives the
shape `\x7b name: optional string, tagKey: optional string, zones: list<string> \x7d`
with absence distinct from the empty string/list. -/
structure Constraints where
  subnetName : Option String
  subnetTagKey : Option String
  zones : List String
deriving DecidableEq

/-- The tag-scan loop inside `byName`: on the first tag whose key is `"Name"`,
return whether its value equals the requested name; if no tag has key
`"Name"`, return false. -/
def byNameGo (name : String) : List Tag → Bool
  | [] => false
  | tag :: rest =>
      if stringValue tag.key = "Name" then decide (stringValue tag.value = name)
      else byNameGo name rest

/-- `byName(name)`: predicate over a subnet, scanning its tags. -/
def byName (name : String) (subnet : Subnet) : Bool :=
  byNameGo name subnet.tags

/-- The tag-scan loop inside `byTagKey`: true on the first tag whose key
equals the requested key, false if none does. -/
def byTagKeyGo (tagKey : String) : List Tag → Bool
  | [] => false
  | tag :: rest =>
      if stringValue tag.key = tagKey then true
      else byTagKeyGo tagKey rest

/-- `byTagKey(tagKey)`: predicate over a subnet, scanning its tags. -/
def byTagKey (tagKey : String) (subnet : Subnet) : Bool :=
  byTagKeyGo tagKey subnet.tags

/-- The zone-scan loop inside `byZones`: true on the first zone equal to the
subnet's availability zone, false if none matches. -/
def byZonesGo (az : String) : List String → Bool
  | [] => false
  | zone :: rest =>
      if az = zone then true
      else byZonesGo az rest

/-- `byZones(zones)`: predicate over a subnet, scanning the requested zones. -/
def byZones (zones : List String) (subnet : Subnet) : Bool :=
  byZonesGo (stringValue subnet.availabilityZone) zones

/-- `filter`: starts from the empty slice and appends every subnet satisfying
the predicate, in input order (the Go loop with `append`). -/
def filter (predicate : Subnet → Bool) (subnets : List Subnet) : List Subnet :=
  subnets.foldl (fun result subnet =>
    if predicate subnet then result ++ [subnet] else result) []

/-- A `go-cache` entry: the stored subnet list plus its expiry instant
(insertion time + TTL). -/
structure CacheEntry where
  value : List Subnet
  expiry : Nat
deriving DecidableEq

/-- The cache store's state: a map from cluster name to optional entry. -/
def Cache : Type := String → Option CacheEntry

/-- `cache.Get(key)` at instant `now`: found only if present and not expired
(`go-cache` reports a miss once the current time passes the expiry). -/
def cacheGet (c : Cache) (now : Nat) (key : String) : Option (List Subnet) :=
  match c key with
  | none => none
  | some e => if now ≤ e.expiry then some e.value else none

/-- `cache.Set(key, value, ttl)` at instant `now`: replace any entry for
`key`, with expiry `now + ttl`. -/
def cacheSet (c : Cache) (now ttl : Nat) (key : String) (v : List Subnet) : Cache :=
  fun k => if k = key then some ⟨v, now + ttl⟩ else c k

/-- The single EC2 describe-subnets filter built by `getSubnets`
(`ec2.Filter`: a name and a list of values). -/
structure Ec2Filter where
  name : String
  values : List String
deriving DecidableEq

/-- Modelled from the spec: the constant `ClusterTagKeyFormat` is defined
elsewhere in the repository, not under `src/`; the spec describes the
discovery filter value as the cluster name substituted into the fixed
pattern `<cluster-tag-namespace>/<cluster-name>`. -/
def clusterTagKeyFormat (clusterName : String) : String :=
  "kubernetes.io/cluster/" ++ clusterName

/-- The describe-subnets filter `getSubnets` sends: name `"tag-key"`, a single
value obtained by formatting the cluster name into `ClusterTagKeyFormat`. -/
def discoveryFilter (clusterName : String) : Ec2Filter :=
  ⟨"tag-key", [clusterTagKeyFormat clusterName]⟩

/-- The external EC2 API (`DescribeSubnetsWithContext`): from the filter to
either the discovered subnets or an error message. -/
def Ec2Api : Type := Ec2Filter → Except String (List Subnet)

/-- `SubnetProvider.getSubnets`: answer from the cache when it holds a valid
entry for the cluster name; otherwise call the EC2 API with the discovery
filter, propagate a failure wrapped as `"describing subnets, <cause>"`, and
on success store the result under the cluster name before returning it.
The result carries the subnets-or-error, the resulting cache state, and
whether the EC2 API was invoked. -/
def getSubnets (ec2api : Ec2Api) (c : Cache) (now ttl : Nat) (clusterName : String) :
    Except String (List Subnet) × Cache × Bool :=
  match cacheGet c now clusterName with
  | some subnets => (Except.ok subnets, c, false)
  | none =>
    match ec2api (discoveryFilter clusterName) with
    | Except.error cause => (Except.error ("describing subnets, " ++ cause), c, true)
    | Except.ok output =>
        (Except.ok output, cacheSet c now ttl clusterName output, true)

/-- `SubnetProvider.Get`: resolve the base candidates via `getSubnets`, then
narrow in order: by name when `constraints.subnetName` is present, by tag key
when `constraints.subnetTagKey` is present, by zones when `constraints.zones`
is non-empty. -/
def Get (ec2api : Ec2Api) (c : Cache) (now ttl : Nat) (clusterName : String)
    (constraints : Constraints) : Except String (List Subnet) × Cache × Bool :=
  match getSubnets ec2api c now ttl clusterName with
  | (Except.error e, c1, invoked) => (Except.error e, c1, invoked)
  | (Except.ok subnets0, c1, invoked) =>
    let subnets1 := match constraints.subnetName with
      | some name => filter (byName name) subnets0
      | none => subnets0
    let subnets2 := match constraints.subnetTagKey with
      | some tagKey => filter (byTagKey tagKey) subnets1
      | none => subnets1
    let subnets3 :=
      if constraints.zones.length ≠ 0 then filter (byZones constraints.zones) subnets2
      else subnets2
    (Except.ok subnets3, c1, invoked)

/-- Spec-side pipeline stage: narrow by name when the constraint is present. -/
def nameStage (cs : Constraints) (subnets : List Subnet) : List Subnet :=
  match cs.subnetName with
  | some name => filter (byName name) subnets
  | none => subnets

/-- Spec-side pipeline stage: narrow by tag key when the constraint is present. -/
def tagKeyStage (cs : Constraints) (subnets : List Subnet) : List Subnet :=
  match cs.subnetTagKey with
  | some tagKey => filter (byTagKey tagKey) subnets
  | none => subnets

/-- Spec-side pipeline stage: narrow by zones when the zone list is non-empty. -/
def zoneStage (cs : Constraints) (subnets : List Subnet) : List Subnet :=
  if cs.zones.length ≠ 0 then filter (byZones cs.zones) subnets else subnets

/-- The append-accumulating loop of `filter` computes `List.filter`. -/
theorem filter_foldl (p : Subnet → Bool) (l acc : List Subnet) :
    l.foldl (fun result subnet =>
      if p subnet then result ++ [subnet] else result) acc = acc ++ l.filter p := by
  induction l generalizing acc with
  | nil => simp
  | cons s rest ih =>
      by_cases h : p s
      · simp [List.foldl, List.filter, h, ih]
      · simp [List.foldl, List.filter, h, ih]

/-- `filter` agrees with `List.filter`. -/
theorem filter_eq_list_filter (p : Subnet → Bool) (l : List Subnet) :
    filter p l = l.filter p := by
  simpa using filter_foldl p l []

/-- Characterisation of the `byName` tag scan: true iff the first tag whose
key is `"Name"` exists and its value equals the requested name. -/
theorem byNameGo_iff (name : String) (tags : List Tag) :
    byNameGo name tags = true ↔
      ∃ t, tags.find? (fun tag => stringValue tag.key = "Name") = some t ∧
        stringValue t.value = name := by
  induction tags with
  | nil => simp [byNameGo]
  | cons tag rest ih =>
      by_cases h : stringValue tag.key = "Name"
      · simp [byNameGo, List.find?, h]
      · simp [byNameGo, List.find?, h, ih]

/-- Characterisation of the `byTagKey` tag scan: true iff some tag has the
requested key. -/
theorem byTagKeyGo_iff (tagKey : String) (tags : List Tag) :
    byTagKeyGo tagKey tags = true ↔ ∃ t ∈ tags, stringValue t.key = tagKey := by
  induction tags with
  | nil => simp [byTagKeyGo]
  | cons tag rest ih =>
      by_cases h : stringValue tag.key = tagKey
      · simp [byTagKeyGo, h]
      · simp [byTagKeyGo, h, ih]

/-- Characterisation of the `byZones` zone scan: true iff the availability
zone is a member of the requested zone list. -/
theorem byZonesGo_iff (az : String) (zones : List String) :
    byZonesGo az zones = true ↔ az ∈ zones := by
  induction zones with
  | nil => simp [byZonesGo]
  | cons zone rest ih =>
      by_cases h : az = zone
      · simp [byZonesGo, h]
      · simp [byZonesGo, h, ih]

/-- Whether `ident` occurs as a contiguous substring of `msg` (used to state
that an error message mentions a given identifier or cause). -/
def mentionsChars (ident msg : List Char) : Bool :=
  (List.range (msg.length + 1)).any (fun i =>
    decide ((msg.drop i).take ident.length = ident))

/-- Whether the string `msg` mentions the string `ident`. -/
def mentions (msg ident : String) : Bool :=
  mentionsChars ident.data msg.data

/-- A string mentions any suffix appended to it. -/
theorem mentions_append (pre cause : String) :
    mentions (pre ++ cause) cause = true := by
  unfold mentions mentionsChars
  rw [List.any_eq_true]
  refine ⟨pre.data.length, ?_, ?_⟩
  · rw [List.mem_range, String.data_append, List.length_append]
    omega
  · rw [String.data_append, List.drop_left, List.take_length, decide_eq_true_eq]

/-- A cache hit: `getSubnets` returns the cached value, the cache unchanged,
without invoking the EC2 API. -/
theorem getSubnets_hit (ec2api : Ec2Api) (c : Cache) (now ttl : Nat)
    (clusterName : String) (base : List Subnet)
    (h : cacheGet c now clusterName = some base) :
    getSubnets ec2api c now ttl clusterName = (Except.ok base, c, false) := by
  unfold getSubnets
  rw [h]

/-- Two valid reads of the same key from the same cache state see the same
value, whatever the instants. -/
theorem cacheGet_some_unique (c : Cache) (now now2 : Nat) (key : String)
    (base base2 : List Subnet)
    (h : cacheGet c now key = some base)
    (h2 : cacheGet c now2 key = some base2) :
    base2 = base := by
  unfold cacheGet at h h2
  cases hc : c key <;> rw [hc] at h h2
  · exact absurd h (by simp)
  · split at h <;> split at h2 <;> simp_all

/-- When the base resolution succeeds, `Get` returns the three narrowing
stages composed in order on the base list, with the cache state and
invocation flag of the resolution step. -/
theorem Get_of_getSubnets_ok (ec2api : Ec2Api) (c : Cache) (now ttl : Nat)
    (clusterName : String) (cs : Constraints) (base : List Subnet)
    (c1 : Cache) (inv : Bool)
    (h : getSubnets ec2api c now ttl clusterName = (Except.ok base, c1, inv)) :
    Get ec2api c now ttl clusterName cs =
      (Except.ok (zoneStage cs (tagKeyStage cs (nameStage cs base))), c1, inv) := by
  obtain ⟨name, tagKey, zones⟩ := cs
  unfold Get
  rw [h]
  cases name <;> cases tagKey <;>
    simp [nameStage, tagKeyStage, zoneStage]

/-- The three stages are all identity when no constraint is present. -/
theorem stages_id_of_empty (base : List Subnet) :
    zoneStage ⟨none, none, []⟩ (tagKeyStage ⟨none, none, []⟩
      (nameStage ⟨none, none, []⟩ base)) = base := by
  simp [nameStage, tagKeyStage, zoneStage]

-- Concrete values used by the witnesses (the spec's worked example).

/-- Example subnet `s1` from the spec. -/
def demoS1 : Subnet := ⟨some "s1", some "us-east-1a", [⟨some "Name", some "a"⟩]⟩

/-- Example subnet `s2` from the spec. -/
def demoS2 : Subnet := ⟨some "s2", some "us-east-1b", [⟨some "Name", some "b"⟩]⟩

/-- Example base set from the spec. -/
def demoBase : List Subnet := [demoS1, demoS2]

/-- A cache holding the example base set for `"example-cluster"`, expiring at
instant 10. -/
def demoCache : Cache :=
  fun k => if k = "example-cluster" then some ⟨demoBase, 10⟩ else none

/-- The empty cache. -/
def emptyCache : Cache := fun _ => none

/-- An EC2 API that always succeeds with the example base set. -/
def demoApi : Ec2Api := fun _ => Except.ok demoBase

/-- An EC2 API that always fails with a transport error. -/
def demoApiFail : Ec2Api := fun _ => Except.error "connection timeout"

-- Basic sanity checks on the predicates, from the spec's worked example.
example :
    byName "a" ⟨some "s1", some "us-east-1a", [⟨some "Name", some "a"⟩]⟩ = true := by
  decide

example :
    byName "a" ⟨some "s2", some "us-east-1b", [⟨some "Name", some "b"⟩]⟩ = false := by
  decide

example :
    filter (byName "a")
      [⟨some "s1", some "us-east-1a", [⟨some "Name", some "a"⟩]⟩,
       ⟨some "s2", some "us-east-1b", [⟨some "Name", some "b"⟩]⟩] =
      [⟨some "s1", some "us-east-1a", [⟨some "Name", some "a"⟩]⟩] := by
  decide

/-- C1: for every successfully resolved base candidate list and every
constraints value, `Get` applies the narrowing stages in the fixed order
by-name, by-tag-key, by-zone, each stage running only when its triggering
constraint is present and consuming the output of the previous one; when no
constraint is present, `Get` returns the base list unchanged and in its
original order. -/
theorem Get_stage_order (ec2api : Ec2Api) (c : Cache) (now ttl : Nat)
    (clusterName : String) (cs : Constraints) (base : List Subnet)
    (c1 : Cache) (inv : Bool)
    (h : getSubnets ec2api c now ttl clusterName = (Except.ok base, c1, inv)) :
    Get ec2api c now ttl clusterName cs =
      (Except.ok (zoneStage cs (tagKeyStage cs (nameStage cs base))), c1, inv) ∧
    (cs = ⟨none, none, []⟩ →
      Get ec2api c now ttl clusterName cs = (Except.ok base, c1, inv)) := by
  refine ⟨Get_of_getSubnets_ok ec2api c now ttl clusterName cs base c1 inv h, ?_⟩
  rintro rfl
  rw [Get_of_getSubnets_ok ec2api c now ttl clusterName _ base c1 inv h,
    stages_id_of_empty]

/-- Witness for C1 at the spec's worked example. -/
theorem Get_stage_order_witness :
    Get demoApi demoCache 0 100 "example-cluster" ⟨some "a", none, []⟩ =
      (Except.ok (zoneStage ⟨some "a", none, []⟩ (tagKeyStage ⟨some "a", none, []⟩
        (nameStage ⟨some "a", none, []⟩ demoBase))), demoCache, false) ∧
    Get demoApi demoCache 0 100 "example-cluster" ⟨none, none, []⟩ =
      (Except.ok demoBase, demoCache, false) :=
  ⟨(Get_stage_order demoApi demoCache 0 100 "example-cluster" ⟨some "a", none, []⟩
      demoBase demoCache false rfl).1,
   (Get_stage_order demoApi demoCache 0 100 "example-cluster" ⟨none, none, []⟩
      demoBase demoCache false rfl).2 rfl⟩

/-- C2: when the cache holds a still-valid entry for the cluster name,
`getSubnets` returns the cached list without invoking the EC2 API (invocation
flag false, result independent of the API), and any other valid read of the
same cluster name from the same cache state observes the same base value. -/
theorem getSubnets_cache_hit (e1 e2 : Ec2Api) (c : Cache) (now now2 ttl : Nat)
    (clusterName : String) (base base2 : List Subnet)
    (h : cacheGet c now clusterName = some base)
    (h2 : cacheGet c now2 clusterName = some base2) :
    getSubnets e1 c now ttl clusterName = (Except.ok base, c, false) ∧
    getSubnets e1 c now ttl clusterName = getSubnets e2 c now ttl clusterName ∧
    base2 = base := by
  refine ⟨getSubnets_hit e1 c now ttl clusterName base h, ?_,
    cacheGet_some_unique c now now2 clusterName base base2 h h2⟩
  rw [getSubnets_hit e1 c now ttl clusterName base h,
    getSubnets_hit e2 c now ttl clusterName base h]

/-- Witness for C2: two reads of the example cache within the TTL window. -/
theorem getSubnets_cache_hit_witness :
    getSubnets demoApi demoCache 0 100 "example-cluster" =
      (Except.ok demoBase, demoCache, false) ∧
    getSubnets demoApi demoCache 0 100 "example-cluster" =
      getSubnets demoApiFail demoCache 0 100 "example-cluster" ∧
    demoBase = demoBase :=
  getSubnets_cache_hit demoApi demoApiFail demoCache 0 5 100 "example-cluster"
    demoBase demoBase rfl rfl

/-- C3 counterexample: at a concrete failing fetch (empty cache, cluster
`"example-cluster"`, transport error `"connection timeout"`), the error
returned is `"describing subnets, connection timeout"`, which does not
mention the cluster being resolved — refuting the claim that the error
identifies the cluster. -/
theorem getSubnets_error_no_cluster_cex :
    getSubnets demoApiFail emptyCache 0 100 "example-cluster" =
      (Except.error "describing subnets, connection timeout", emptyCache, true) ∧
    mentions "describing subnets, connection timeout" "example-cluster" = false := by
  exact ⟨rfl, by decide⟩

/-- C3 (amended): for every failing EC2 call on a cache miss, `getSubnets`
returns an error that wraps the underlying cause (and mentions it), returns
no subnet list, and leaves the cache unchanged; the error does not carry the
cluster name. -/
theorem getSubnets_fetch_failure (ec2api : Ec2Api) (c : Cache) (now ttl : Nat)
    (clusterName cause : String)
    (hmiss : cacheGet c now clusterName = none)
    (hfail : ec2api (discoveryFilter clusterName) = Except.error cause) :
    getSubnets ec2api c now ttl clusterName =
      (Except.error ("describing subnets, " ++ cause), c, true) ∧
    mentions ("describing subnets, " ++ cause) cause = true := by
  refine ⟨?_, mentions_append "describing subnets, " cause⟩
  unfold getSubnets
  rw [hmiss, hfail]

/-- Witness for C3's amended theorem at the concrete failing fetch. -/
theorem getSubnets_fetch_failure_witness :
    getSubnets demoApiFail emptyCache 0 100 "example-cluster" =
      (Except.error ("describing subnets, " ++ "connection timeout"), emptyCache, true) ∧
    mentions ("describing subnets, " ++ "connection timeout") "connection timeout" = true :=
  getSubnets_fetch_failure demoApiFail emptyCache 0 100 "example-cluster"
    "connection timeout" rfl rfl

/-- C4: `byName` is true iff the first tag whose key is `"Name"` exists and
its value equals the requested name; a later matching `"Name"` tag cannot
make the predicate true, since only the tag found first governs. -/
theorem byName_first_name_tag_governs (name : String) (s : Subnet) :
    byName name s = true ↔
      ∃ t, s.tags.find? (fun tag => stringValue tag.key = "Name") = some t ∧
        stringValue t.value = name :=
  byNameGo_iff name s.tags

/-- C5: `filter` returns exactly the order-preserving sublist of elements
satisfying the predicate (it agrees with `List.filter`), and it is a total
function: an empty result is an ordinary value, not an error. -/
theorem filter_narrowing_spec (p : Subnet → Bool) (l : List Subnet) :
    List.Sublist (filter p l) l ∧
    (∀ s, s ∈ filter p l ↔ s ∈ l ∧ p s = true) ∧
    filter p l = l.filter p := by
  refine ⟨?_, ?_, filter_eq_list_filter p l⟩
  · rw [filter_eq_list_filter]
    exact List.filter_sublist l
  · intro s
    rw [filter_eq_list_filter]
    simp [List.mem_filter]

/-- C6: narrowing has intersection semantics — applying any two predicates
via `filter` in either order yields the same result list, so the set of
subnets in `Get`'s result does not depend on the order of the present
stages. -/
theorem filter_order_independent (p q : Subnet → Bool) (l : List Subnet) :
    filter p (filter q l) = filter q (filter p l) := by
  rw [filter_eq_list_filter, filter_eq_list_filter, filter_eq_list_filter,
    filter_eq_list_filter, List.filter_filter, List.filter_filter]
  exact List.filter_congr (fun a _ => Bool.and_comm (p a) (q a))

/-- C7: `byZones` is true iff the subnet's availability zone is a member of
the requested zone list; and a `Get` whose zone constraint is the empty list
applies no zone filtering at all — its result is exactly the output of the
name and tag-key stages. -/
theorem byZones_membership_empty_skip (zones : List String) (s : Subnet)
    (ec2api : Ec2Api) (c : Cache) (now ttl : Nat) (clusterName : String)
    (name tagKey : Option String) (base : List Subnet) (c1 : Cache) (inv : Bool)
    (h : getSubnets ec2api c now ttl clusterName = (Except.ok base, c1, inv)) :
    (byZones zones s = true ↔ stringValue s.availabilityZone ∈ zones) ∧
    Get ec2api c now ttl clusterName ⟨name, tagKey, []⟩ =
      (Except.ok (tagKeyStage ⟨name, tagKey, []⟩
        (nameStage ⟨name, tagKey, []⟩ base)), c1, inv) := by
  refine ⟨byZonesGo_iff (stringValue s.availabilityZone) zones, ?_⟩
  unfold Get
  rw [h]
  cases name <;> cases tagKey <;> simp [nameStage, tagKeyStage]

/-- Witness for C7 at the spec's worked example. -/
theorem byZones_membership_empty_skip_witness :
    (byZones ["us-east-1b"] demoS2 = true ↔
      stringValue demoS2.availabilityZone ∈ ["us-east-1b"]) ∧
    Get demoApi demoCache 0 100 "example-cluster" ⟨some "a", none, []⟩ =
      (Except.ok (tagKeyStage ⟨some "a", none, []⟩
        (nameStage ⟨some "a", none, []⟩ demoBase)), demoCache, false) :=
  byZones_membership_empty_skip ["us-east-1b"] demoS2 demoApi demoCache 0 100
    "example-cluster" (some "a") none demoBase demoCache false rfl

/-- C8: `byTagKey` is true iff the subnet has at least one tag whose key
equals the requested key, regardless of that tag's value. -/
theorem byTagKey_key_present (tagKey : String) (s : Subnet) :
    byTagKey tagKey s = true ↔ ∃ t ∈ s.tags, stringValue t.key = tagKey :=
  byTagKeyGo_iff tagKey s.tags

/-- C9: the discovery filter passed to the EC2 API on a cache miss is a
single tag-key string obtained by substituting the cluster name into the
fixed format pattern, and `getSubnets` depends on the EC2 API only through
its value at that one filter — so two fetches for the same cluster name use
the same filter. -/
theorem discovery_filter_fixed_pattern (clusterName : String) (e1 e2 : Ec2Api)
    (c : Cache) (now ttl : Nat)
    (h : e1 (discoveryFilter clusterName) = e2 (discoveryFilter clusterName)) :
    discoveryFilter clusterName =
      ⟨"tag-key", [clusterTagKeyFormat clusterName]⟩ ∧
    (discoveryFilter clusterName).values.length = 1 ∧
    getSubnets e1 c now ttl clusterName = getSubnets e2 c now ttl clusterName := by
  refine ⟨rfl, rfl, ?_⟩
  unfold getSubnets
  cases cacheGet c now clusterName
  · rw [h]
  · rfl

/-- Witness for C9 with two EC2 APIs agreeing at the discovery filter. -/
theorem discovery_filter_fixed_pattern_witness :
    discoveryFilter "example-cluster" =
      ⟨"tag-key", [clusterTagKeyFormat "example-cluster"]⟩ ∧
    (discoveryFilter "example-cluster").values.length = 1 ∧
    getSubnets demoApi emptyCache 0 100 "example-cluster" =
      getSubnets demoApi emptyCache 0 100 "example-cluster" :=
  discovery_filter_fixed_pattern "example-cluster" demoApi demoApi emptyCache
    0 100 rfl

/-- C10: a cache-served `Get` leaves the cache state unchanged, and a later
`Get` for the same cluster within the TTL window starts again from the full
unfiltered base set, whatever constraints the earlier call applied. -/
theorem Get_cache_frame (e1 e2 : Ec2Api) (c : Cache) (now now2 ttl ttl2 : Nat)
    (clusterName : String) (cs cs2 : Constraints) (base base2 : List Subnet)
    (h : cacheGet c now clusterName = some base)
    (h2 : cacheGet c now2 clusterName = some base2) :
    (Get e1 c now ttl clusterName cs).2.1 = c ∧
    base2 = base ∧
    Get e2 ((Get e1 c now ttl clusterName cs).2.1) now2 ttl2 clusterName cs2 =
      (Except.ok (zoneStage cs2 (tagKeyStage cs2 (nameStage cs2 base))), c, false) := by
  have hfst : Get e1 c now ttl clusterName cs =
      (Except.ok (zoneStage cs (tagKeyStage cs (nameStage cs base))), c, false) :=
    Get_of_getSubnets_ok e1 c now ttl clusterName cs base c false
      (getSubnets_hit e1 c now ttl clusterName base h)
  have hbase : base2 = base := cacheGet_some_unique c now now2 clusterName base base2 h h2
  refine ⟨by rw [hfst], hbase, ?_⟩
  rw [hfst]
  subst hbase
  exact Get_of_getSubnets_ok e2 c now2 ttl2 clusterName cs2 base2 c false
    (getSubnets_hit e2 c now2 ttl2 clusterName base2 h2)

/-- Witness for C10: a constrained cache hit followed by a differently
constrained read of the same cluster within the TTL window. -/
theorem Get_cache_frame_witness :
    (Get demoApi demoCache 0 100 "example-cluster" ⟨some "a", none, []⟩).2.1 =
      demoCache ∧
    demoBase = demoBase ∧
    Get demoApiFail
      ((Get demoApi demoCache 0 100 "example-cluster" ⟨some "a", none, []⟩).2.1)
      5 100 "example-cluster" ⟨none, none, ["us-east-1b"]⟩ =
      (Except.ok (zoneStage ⟨none, none, ["us-east-1b"]⟩
        (tagKeyStage ⟨none, none, ["us-east-1b"]⟩
          (nameStage ⟨none, none, ["us-east-1b"]⟩ demoBase))), demoCache, false) :=
  Get_cache_frame demoApi demoApiFail demoCache 0 5 100 100 "example-cluster"
    ⟨some "a", none, []⟩ ⟨none, none, ["us-east-1b"]⟩ demoBase demoBase rfl rfl
